import Mathlib

/-!
Verification of the query-expansion and reconciliation engine of
`immich-dynamic-albums` (`src/sync.py`).

The Python code is shallowly embedded:

* Python dicts become insertion-ordered association lists (`Dict`);
  `pop`, `in`, indexing and item assignment become `dictRemove`,
  `dictLookup` and `dictSet`.
* JSON-ish values occurring in a filter expression, and the values the
  expander writes into an atomic query, form the inductive type `Value`.
* `datetime.strptime(s, "%Y-%m-%d")` becomes `parseDate`; a naive
  `datetime` is represented by its count of seconds from the proleptic
  Gregorian epoch (`dateSeconds`); `timedelta(hours=24)` is `+ 86400`.
* Raised exceptions become `Except SyncError`; Python truthiness of an
  optional identifier (`if not p_id`, which treats both `None` and the
  empty string as falsy) is modelled by `optFalsy`.
* The generator `config_query_to_search_queries` is embedded in two
  layers: calling the function allocates a suspended generator object
  (`config_query_to_search_queries`, which runs no body code), and the
  body that runs once the generator is advanced is `config_query_body`,
  which returns both the yielded atomic queries and the final (mutated)
  state of the caller's expression dict.
-/

set_option autoImplicit false

namespace ImmichSync

/-! ## Dicts and values -/

inductive Value where
  | vStr (s : String)
  | vStrList (l : List String)
  | vBool (b : Bool)
  | vTs (tsStart tsEnd : String)
  | vTsList (l : List (String × String))
  | vNone
  | vDT (secs : Nat)
deriving DecidableEq, Repr

abbrev Dict := List (String × Value)

abbrev Mapping := List (String × String)

def dictLookup : Dict → String → Option Value
  | [], _ => none
  | (k1, v) :: rest, k => if k1 = k then some v else dictLookup rest k

def dictRemove : Dict → String → Dict
  | [], _ => []
  | (k1, v) :: rest, k => if k1 = k then rest else (k1, v) :: dictRemove rest k

def dictSet : Dict → String → Value → Dict
  | [], k, v => [(k, v)]
  | (k1, v1) :: rest, k, v => if k1 = k then (k, v) :: rest else (k1, v1) :: dictSet rest k v

/-- A dict has no duplicate keys (always true of a real Python dict). -/
def DictWF (q : Dict) : Prop := (q.map Prod.fst).Nodup

def lookupM : Mapping → String → Option String
  | [], _ => none
  | (k1, v) :: rest, k => if k1 = k then some v else lookupM rest k

/-! ## `is_valid_uuid` (sync.py lines 315-320)

`uuid.UUID(value)` removes every occurrence of `urn:` and `uuid:`,
strips curly braces from both ends, removes hyphens, requires exactly
32 remaining characters and parses them with `int(_, 16)`;
`is_valid_uuid` catches only `ValueError`. `int(_, 16)` strips ASCII
whitespace, accepts an optional sign, an optional `0x`/`0X` prefix and
single underscores between hex digits. -/

def isHexDigitChar (c : Char) : Bool :=
  c.isDigit || (97 ≤ c.toNat && c.toNat ≤ 102) || (65 ≤ c.toNat && c.toNat ≤ 70)

def isPySpace (c : Char) : Bool :=
  c == ' ' || c == '\t' || c == '\n' || c == '\r' || c.toNat == 11 || c.toNat == 12

def stripSet (p : Char → Bool) (cs : List Char) : List Char :=
  ((cs.dropWhile p).reverse.dropWhile p).reverse

def hexTail : List Char → Bool
  | [] => true
  | c :: rest =>
    if c == '_' then
      match rest with
      | [] => false
      | c2 :: rest2 => isHexDigitChar c2 && hexTail rest2
    else isHexDigitChar c && hexTail rest

def hexBody (allowLeadingUnderscore : Bool) (cs : List Char) : Bool :=
  match cs with
  | [] => false
  | c :: rest =>
    if allowLeadingUnderscore && c == '_' then
      match rest with
      | [] => false
      | c2 :: rest2 => isHexDigitChar c2 && hexTail rest2
    else isHexDigitChar c && hexTail rest

def dropSign : List Char → List Char
  | [] => []
  | c :: rest => if c == '+' || c == '-' then rest else c :: rest

def intParse16Ok (s : List Char) : Bool :=
  let cs := dropSign (stripSet isPySpace s)
  match cs with
  | '0' :: x :: rest => if x == 'x' || x == 'X' then hexBody true rest else hexBody false cs
  | _ => hexBody false cs

/-- `str.replace(pat, "")`: delete every non-overlapping occurrence of
`pat`, scanning left to right (structural recursion: `skip` counts the
matched characters still to drop). -/
def removeAux (pat : List Char) : Nat → List Char → List Char
  | _, [] => []
  | n + 1, _ :: rest => removeAux pat n rest
  | 0, c :: rest =>
    if pat.isPrefixOf (c :: rest) then removeAux pat (pat.length - 1) rest
    else c :: removeAux pat 0 rest

def removeSubstr (pat cs : List Char) : List Char :=
  if pat.isEmpty then cs else removeAux pat 0 cs

def is_valid_uuid (value : String) : Bool :=
  let h := removeSubstr "urn:".data value.data
  let h := removeSubstr "uuid:".data h
  let h := stripSet (fun c => c == Char.ofNat 123 || c == Char.ofNat 125) h
  let h := removeSubstr "-".data h
  h.length == 32 && intParse16Ok h

/-! ## Dates (`datetime.strptime(_, "%Y-%m-%d")` and `timedelta`) -/

structure PyDate where
  year : Nat
  month : Nat
  day : Nat
deriving DecidableEq, Repr

def isLeapYear (y : Nat) : Bool := (y % 4 == 0 && y % 100 != 0) || y % 400 == 0

def daysInMonth (y m : Nat) : Nat :=
  if m = 2 then (if isLeapYear y then 29 else 28)
  else if m = 4 ∨ m = 6 ∨ m = 9 ∨ m = 11 then 30 else 31

/-- Split a character list at a separator. -/
def splitOnChar (sep : Char) : List Char → List (List Char)
  | [] => [[]]
  | c :: rest =>
    match splitOnChar sep rest with
    | [] => [[c]]
    | g :: gs => if c = sep then [] :: g :: gs else (c :: g) :: gs

/-- Parse a non-empty all-digit character list. -/
def digitsToNat? (cs : List Char) : Option Nat :=
  match cs with
  | [] => none
  | _ :: _ => go cs 0
where
  go : List Char → Nat → Option Nat
    | [], acc => some acc
    | c :: rest, acc => if c.isDigit then go rest (acc * 10 + (c.toNat - 48)) else none

/-- CPython's `%Y` pattern `\d\d\d\d`: exactly four digits. -/
def parseYearPart (cs : List Char) : Option Nat :=
  if cs.length = 4 then digitsToNat? cs else none

/-- CPython's `%m` pattern `1[0-2]|0[1-9]|[1-9]`: one or two digits
whose value is 1..12 (extensionally equal to the alternatives, since a
full match is required). -/
def parseMonthPart (cs : List Char) : Option Nat :=
  if cs.length = 1 ∨ cs.length = 2 then
    match digitsToNat? cs with
    | some m => if 1 ≤ m ∧ m ≤ 12 then some m else none
    | none => none
  else none

/-- CPython's `%d` pattern `3[0-1]|[1-2]\d|0[1-9]|[1-9]| [1-9]`: one
or two digits with value 1..31, or a space followed by one digit 1..9
(the ctime-style padded day). -/
def parseDayPart (cs : List Char) : Option Nat :=
  match cs with
  | [' ', c] => if 49 ≤ c.toNat ∧ c.toNat ≤ 57 then some (c.toNat - 48) else none
  | _ =>
    if cs.length = 1 ∨ cs.length = 2 then
      match digitsToNat? cs with
      | some d => if 1 ≤ d ∧ d ≤ 31 then some d else none
      | none => none
    else none

/-- `strptime` with format `%Y-%m-%d`: the three field patterns above
joined by literal hyphens, no leftover input (the field patterns cannot
contain a hyphen, so regex matching coincides with splitting on
hyphens), followed by the `datetime` constructor's range check (year at
least `datetime.MINYEAR = 1`, day within the month). ASCII model: the
non-ASCII decimal digits that CPython's `\d` would also accept are
outside the embedding. -/
def parseDate (s : String) : Option PyDate :=
  match splitOnChar '-' s.data with
  | [ys, ms, ds] =>
    match parseYearPart ys, parseMonthPart ms, parseDayPart ds with
    | some y, some m, some d =>
      if 1 ≤ y ∧ d ≤ daysInMonth y m then some ⟨y, m, d⟩ else none
    | _, _, _ => none
  | _ => none

def DateValid (d : PyDate) : Prop :=
  1 ≤ d.year ∧ 1 ≤ d.month ∧ d.month ≤ 12 ∧ 1 ≤ d.day ∧ d.day ≤ daysInMonth d.year d.month

def leapsBefore (n : Nat) : Nat := n / 4 - n / 100 + n / 400

def daysBeforeYear (y : Nat) : Nat := 365 * (y - 1) + leapsBefore (y - 1)

def monthLengths (y : Nat) : List Nat :=
  [31, daysInMonth y 2, 31, 30, 31, 30, 31, 31, 30, 31, 30, 31]

def daysBeforeMonth (y m : Nat) : Nat := ((monthLengths y).take (m - 1)).sum

/-- Day count of a date from the proleptic Gregorian epoch. -/
def toOrdinal (d : PyDate) : Nat :=
  daysBeforeYear d.year + daysBeforeMonth d.year d.month + (d.day - 1)

/-- A naive midnight `datetime` as seconds from the epoch. -/
def dateSeconds (d : PyDate) : Nat := toOrdinal d * 86400

/-- The day count of `datetime.max` (9999-12-31): adding a `timedelta`
that lands past it raises an uncaught `OverflowError`. -/
def maxOrdinal : Nat := toOrdinal ⟨9999, 12, 31⟩

/-- The next calendar day. -/
def nextDay (d : PyDate) : PyDate :=
  if d.day < daysInMonth d.year d.month then ⟨d.year, d.month, d.day + 1⟩
  else if d.month < 12 then ⟨d.year, d.month + 1, 1⟩
  else ⟨d.year + 1, 1, 1⟩

/-! ## Errors raised by `config_query_to_search_queries` -/

inductive SyncError where
  /-- `ValueError` listing the names in `people` that did not resolve. -/
  | unresolvedPeople (names : List String)
  /-- `ValueError` for `people` plus `any_people` in one expression. -/
  | configConflict
  /-- `ValueError` listing the names in `any_people` that did not resolve. -/
  | unresolvedAnyPeople (names : List String)
  /-- `ValueError` listing the tags that did not resolve. -/
  | unresolvedTags (names : List String)
  /-- `ValueError`: `country` is neither a string nor a list. -/
  | countryNotStrOrList
  /-- `ValueError`: `timespan` is neither a dict nor a list. -/
  | timespanNotDictOrList
  /-- `ValueError` from `strptime` on an unparsable date string. -/
  | dateParseFailure (s : String)
  /-- Uncaught `OverflowError`: `strptime(end) + timedelta(hours=24)`
  lands past `datetime.max` (end = 9999-12-31). -/
  | dateOverflow (s : String)
  /-- An exception the code does not catch (e.g. `TypeError` from
  handing a non-string where a string is expected). -/
  | pyTypeFailure
deriving DecidableEq, Repr

/-! ## Name resolution (sync.py lines 196-206, 224-234, 243-250) -/

/-- `p_val if is_valid_uuid(p_val) else mapping.get(p_val)`. -/
def resolveRef (m : Mapping) (s : String) : Option String :=
  if is_valid_uuid s then some s else lookupM m s

/-- Python truthiness of the optional id: `None` and `""` are falsy. -/
def optFalsy : Option String → Bool
  | none => true
  | some id => id == ""

/-- The accumulation loop shared by the `people` and `any_people`
blocks: partition the references into resolved ids and unresolved
names, in order; a non-string reference raises. -/
def resolveLoop (m : Mapping) : List Value → Except SyncError (List String × List String)
  | [] => .ok ([], [])
  | Value.vStr s :: rest =>
    (resolveLoop m rest).map (fun ru =>
      match resolveRef m s with
      | none => (ru.1, s :: ru.2)
      | some id => if id = "" then (ru.1, s :: ru.2) else (id :: ru.1, ru.2))
  | _ :: _ => .error .pyTypeFailure

/-- `if not isinstance(x, list): x = [x]` followed by element views:
a Python list value yields its elements, anything else is wrapped. -/
def listifyRefs : Value → List Value
  | Value.vStrList l => l.map Value.vStr
  | Value.vTsList l => l.map (fun p => Value.vTs p.1 p.2)
  | v => [v]

/-- `for p_val in any_people_values` without normalization: lists
iterate over elements, strings iterate over one-character strings,
dicts iterate over their keys and anything else raises `TypeError`. -/
def iterValue : Value → Except SyncError (List Value)
  | Value.vStrList l => .ok (l.map Value.vStr)
  | Value.vTsList l => .ok (l.map (fun p => Value.vTs p.1 p.2))
  | Value.vStr s => .ok (s.data.map (fun c => Value.vStr (String.mk [c])))
  | Value.vTs _ _ => .ok [Value.vStr "start", Value.vStr "end"]
  | _ => .error .pyTypeFailure

/-! ## The expansion steps of `config_query_to_search_queries`
(sync.py lines 186-312), in source order. -/

/-- Lines 190-209: the `people` block. Returns the AND-person
constraint (`and_person_params`, `some` iff non-empty) and the dict
after `query.pop("people")`. -/
def stepPeople (q : Dict) (pm : Mapping) : Except SyncError (Option (List String) × Dict) :=
  match dictLookup q "people" with
  | none => .ok (none, q)
  | some v => do
    let ru ← resolveLoop pm (listifyRefs v)
    if ru.2.isEmpty then
      .ok ((if ru.1.isEmpty then none else some ru.1), dictRemove q "people")
    else .error (.unresolvedPeople ru.2)

/-- Lines 211-240: the `any_people` block. Returns the OR-branch
parameter list (`or_people_param_iterations`, where `none` is the empty
parameter set `{}`), the `uses_any_people_logic` flag, and the dict
after `query.pop("any_people")`. The conflict test is
`if and_person_params:` — dict truthiness. -/
def stepAnyPeople (q : Dict) (pm : Mapping) (andP : Option (List String)) :
    Except SyncError (List (Option String) × Bool × Dict) :=
  match dictLookup q "any_people" with
  | none => .ok ([none], false, q)
  | some v =>
    if andP.isSome then .error .configConflict
    else do
      let vals ← iterValue v
      let ru ← resolveLoop pm vals
      if ru.2.isEmpty then
        if ru.1.isEmpty then .ok ([none], false, dictRemove q "any_people")
        else .ok (ru.1.map some, true, dictRemove q "any_people")
      else .error (.unresolvedAnyPeople ru.2)

/-- The list comprehension of line 247: map each tag to its optional
id; a non-string tag raises `TypeError`. -/
def tagLoop (tm : Mapping) : List Value → Except SyncError (List (Option String))
  | [] => .ok []
  | Value.vStr s :: rest => (tagLoop tm rest).map (fun l => resolveRef tm s :: l)
  | _ :: _ => .error .pyTypeFailure

/-- Lines 242-252: the `tags` block. The error trigger is
`if None in tag_ids`, while the reported list keeps every falsy entry;
on success a non-empty id list is written back as `query["tag_ids"]`. -/
def stepTags (q : Dict) (tm : Mapping) : Except SyncError Dict :=
  match dictLookup q "tags" with
  | none => .ok q
  | some v => do
    let vals := listifyRefs v
    let tagIds ← tagLoop tm vals
    if tagIds.contains none then
      .error (.unresolvedTags ((vals.zip tagIds).filterMap (fun p =>
        match p with
        | (Value.vStr s, pid) => if optFalsy pid then some s else none
        | _ => none)))
    else
      let q2 := dictRemove q "tags"
      if tagIds.isEmpty then .ok q2
      else .ok (dictSet q2 "tag_ids" (Value.vStrList (tagIds.map (fun o => o.getD ""))))

/-- Lines 255-260: `query.pop("country", [None])`, wrapping a string
and rejecting a non-list non-string. -/
def stepCountry (q : Dict) : Except SyncError (List Value × Dict) :=
  match dictLookup q "country" with
  | none => .ok ([Value.vNone], q)
  | some (Value.vStr s) => .ok ([Value.vStr s], dictRemove q "country")
  | some (Value.vStrList l) => .ok (l.map Value.vStr, dictRemove q "country")
  | some (Value.vTsList l) => .ok (l.map (fun p => Value.vTs p.1 p.2), dictRemove q "country")
  | some _ => .error .countryNotStrOrList

/-- Lines 262-266: `query.pop("timespan", [])`, wrapping a dict and
rejecting a non-list non-dict. -/
def stepTimespan (q : Dict) : Except SyncError (List Value × Dict) :=
  match dictLookup q "timespan" with
  | none => .ok ([], q)
  | some (Value.vTs s e) => .ok ([Value.vTs s e], dictRemove q "timespan")
  | some (Value.vTsList l) => .ok (l.map (fun p => Value.vTs p.1 p.2), dictRemove q "timespan")
  | some (Value.vStrList l) => .ok (l.map Value.vStr, dictRemove q "timespan")
  | some _ => .error .timespanNotDictOrList

/-- A processed timespan entry: optional `before` and `after`
timestamps (in seconds). -/
abbrev TsParam := Option Nat × Option Nat

/-- Lines 268-274, one entry: the dict literal evaluates
`"before": strptime(q["end"]) + timedelta(hours=24)` first, then
`"after": strptime(q["start"])`; a non-dict entry raises. -/
def processOneTimespan : Value → Except SyncError TsParam
  | Value.vTs s e =>
    match parseDate e with
    | none => .error (.dateParseFailure e)
    | some de =>
      if maxOrdinal < toOrdinal de + 1 then .error (.dateOverflow e)
      else
        match parseDate s with
        | none => .error (.dateParseFailure s)
        | some ds => .ok (some (dateSeconds de + 86400), some (dateSeconds ds))
  | _ => .error .pyTypeFailure

def processTimespans : List Value → Except SyncError (List TsParam)
  | [] => .ok []
  | v :: rest => do
    let p ← processOneTimespan v
    let ps ← processTimespans rest
    .ok (p :: ps)

def optDT : Option Nat → Value
  | some n => Value.vDT n
  | none => Value.vNone

/-- Lines 286-312, one iteration of the product loop: build
`{"country": c, **timespan_param, **query}`, apply the OR branch or the
AND constraint, then delete `country`/`before`/`after` keys that came
from the defaults. -/
def buildSub (c : Value) (t : TsParam) (orp : Option String) (uses : Bool)
    (andP : Option (List String)) (rest : Dict) : Dict :=
  let sq : Dict := [("country", c), ("before", optDT t.1), ("after", optDT t.2)]
  let sq := rest.foldl (fun acc kv => dictSet acc kv.1 kv.2) sq
  let sq :=
    if uses then
      match orp with
      | some pid => dictSet sq "person_ids" (Value.vStrList [pid])
      | none => sq
    else
      match andP with
      | some ids => dictSet sq "person_ids" (Value.vStrList ids)
      | none => sq
  let sq := if dictLookup sq "country" = some Value.vNone then dictRemove sq "country" else sq
  let sq := if t.1 = none ∧ (dictLookup sq "before").isSome then dictRemove sq "before" else sq
  let sq := if t.2 = none ∧ (dictLookup sq "after").isSome then dictRemove sq "after" else sq
  sq

/-- The full body of `config_query_to_search_queries` (sync.py lines
186-312), run to exhaustion: the yielded atomic queries in order,
together with the final state of the caller's `query` dict (the
function pops the consumed keys and may write `tag_ids`). -/
def config_query_body (q : Dict) (pm tm : Mapping) :
    Except SyncError (List Dict × Dict) := do
  let (andP, q1) ← stepPeople q pm
  let (orIters, usesAny, q2) ← stepAnyPeople q1 pm andP
  let q3 ← stepTags q2 tm
  let (countries, q4) ← stepCountry q3
  let (tsRaw, q5) ← stepTimespan q4
  let ts0 ← processTimespans tsRaw
  let tss := if ts0.isEmpty then [((none : Option Nat), (none : Option Nat))] else ts0
  .ok (countries.flatMap (fun c => tss.flatMap (fun t =>
        orIters.map (fun o => buildSub c t o usesAny andP q5))), q5)

/-! ## The generator object

`config_query_to_search_queries` contains `yield`, so calling it in
Python runs none of its body: it allocates a generator object that
stores the arguments. The body runs when the generator is advanced;
everything before the product loop — and hence every raise — happens
during the first advance. -/

structure PyGenerator where
  genQuery : Dict
  genPeopleMapping : Mapping
  genTagMapping : Mapping
deriving Repr

/-- Calling the generator function: no body code runs. -/
def config_query_to_search_queries (q : Dict) (pm tm : Mapping) : PyGenerator :=
  ⟨q, pm, tm⟩

/-- The first `next()` on the generator: runs the body up to the first
`yield` (or to `StopIteration`), surfacing any raise. -/
def PyGenerator.next1 (g : PyGenerator) : Except SyncError (Option Dict) :=
  match config_query_body g.genQuery g.genPeopleMapping g.genTagMapping with
  | .error e => .error e
  | .ok lq => .ok lq.1.head?

/-! ## Reconciliation and the orchestrator tail (sync.py lines 367-399) -/

inductive ApiCall where
  | searchCall (params : Dict)
  | removeAssets (albumId : String) (ids : Finset String)
  | addAssets (albumId : String) (ids : Finset String)
deriving DecidableEq

/-- Lines 388-389: `to_add = desired - current`,
`to_remove = current - desired`. -/
def reconcilePlan (desired current : Finset String) : Finset String × Finset String :=
  (desired \ current, current \ desired)

/-- Lines 395-399: one removal call if `to_remove` is non-empty, then
one addition call if `to_add` is non-empty. -/
def applyPlanCalls (albumId : String) (toRemove toAdd : Finset String) : List ApiCall :=
  (if toRemove = ∅ then [] else [ApiCall.removeAssets albumId toRemove]) ++
  (if toAdd = ∅ then [] else [ApiCall.addAssets albumId toAdd])

/-- One album's network activity in `sync_albums` after the name
mappings are known: the expansion is materialised by `list(...)` (line
372) before any `immich.search` call is issued; the search results are
unioned into the desired set, reconciled against the current album
members, and the plan is applied. `searchResult` abstracts the external
search endpoint. -/
def albumSyncCalls (q : Dict) (pm tm : Mapping) (searchResult : Dict → Finset String)
    (albumId : String) (current : Finset String) : Except SyncError (List ApiCall) := do
  let subsq ← config_query_body q pm tm
  let desired := subsq.1.foldl (fun acc sq => acc ∪ searchResult sq) ∅
  let plan := reconcilePlan desired current
  .ok (subsq.1.map ApiCall.searchCall ++ applyPlanCalls albumId plan.2 plan.1)

/-! ## Branch-counting functions for the product-size claims -/

/-- Number of country branches: `1` when absent or a single string,
the list length otherwise. -/
def countryBranchCount (q : Dict) : Nat :=
  match dictLookup q "country" with
  | none => 1
  | some (Value.vStr _) => 1
  | some (Value.vStrList l) => l.length
  | some (Value.vTsList l) => l.length
  | some _ => 0

/-- The claim's `t`: the number of timespan entries, defaulting to `1`
only when the field is absent. -/
def timespanEntryCount (q : Dict) : Nat :=
  match dictLookup q "timespan" with
  | none => 1
  | some (Value.vTs _ _) => 1
  | some (Value.vTsList l) => l.length
  | some (Value.vStrList l) => l.length
  | some _ => 0

/-- The code's timespan branch count: an empty entry list also falls
back to the single unconstrained branch. -/
def timespanBranchCount (q : Dict) : Nat :=
  match dictLookup q "timespan" with
  | none => 1
  | some (Value.vTs _ _) => 1
  | some (Value.vTsList l) => max 1 l.length
  | some (Value.vStrList l) => max 1 l.length
  | some _ => 1

/-- Number of OR-person branches: `1` when `any_people` is absent or
resolves to no identifiers, else the resolved count. -/
def orBranchCount (q : Dict) (pm : Mapping) : Nat :=
  match dictLookup q "any_people" with
  | none => 1
  | some v =>
    match iterValue v with
    | .error _ => 1
    | .ok vals =>
      match resolveLoop pm vals with
      | .error _ => 1
      | .ok ru => max 1 ru.1.length

end ImmichSync

namespace ImmichSync

theorem leapsBefore_succ (y : Nat) (hy : 1 ≤ y) :
    leapsBefore y = leapsBefore (y - 1) + (if isLeapYear y then 1 else 0) := by
  unfold leapsBefore isLeapYear
  rcases Nat.exists_eq_add_of_le hy with ⟨k, rfl⟩
  simp only [Nat.add_sub_cancel_left]
  split
  · next h =>
    simp only [Bool.or_eq_true, Bool.and_eq_true, beq_iff_eq, bne_iff_ne, ne_eq] at h
    omega
  · next h =>
    simp only [Bool.or_eq_true, Bool.and_eq_true, beq_iff_eq, bne_iff_ne, ne_eq] at h
    push_neg at h
    omega

theorem daysInMonth_pos (y m : Nat) : 1 ≤ daysInMonth y m := by
  unfold daysInMonth
  split
  · split <;> omega
  · split <;> omega

theorem daysBeforeMonth_succ (y m : Nat) (h1 : 1 ≤ m) (h12 : m ≤ 12) :
    daysBeforeMonth y (m + 1) = daysBeforeMonth y m + daysInMonth y m := by
  unfold daysBeforeMonth monthLengths
  interval_cases m <;> simp [daysInMonth, isLeapYear] <;> omega

theorem toOrdinal_nextDay (d : PyDate) (h : DateValid d) :
    toOrdinal (nextDay d) = toOrdinal d + 1 := by
  obtain ⟨hy, hm1, hm12, hd1, hdm⟩ := h
  unfold nextDay
  split
  · next hlt =>
    unfold toOrdinal
    simp only
    omega
  · next hge =>
    have hde : d.day = daysInMonth d.year d.month := by omega
    split
    · next hmlt =>
      unfold toOrdinal
      simp only
      have hsucc := daysBeforeMonth_succ d.year d.month hm1 hm12
      have := daysInMonth_pos d.year d.month
      omega
    · next hmge =>
      have hm : d.month = 12 := by omega
      rw [hm] at hde hdm
      have hd12 : daysInMonth d.year 12 = 31 := by unfold daysInMonth; norm_num
      have hday : d.day = 31 := by omega
      unfold toOrdinal daysBeforeYear
      simp only [hm, hday, Nat.add_sub_cancel]
      have h12 := daysBeforeMonth_succ d.year 12 (by omega) (by omega)
      norm_num at h12
      have h13 : daysBeforeMonth d.year 13 = (if isLeapYear d.year then 366 else 365) := by
        unfold daysBeforeMonth monthLengths
        simp [daysInMonth]
        split <;> omega
      have hls := leapsBefore_succ d.year hy
      have hbm1 : daysBeforeMonth (d.year + 1) 1 = 0 := by
        unfold daysBeforeMonth; simp
      rw [hbm1]
      by_cases hL : isLeapYear d.year = true
      · simp only [hL, if_true] at h13 hls
        omega
      · simp only [hL, if_false] at h13 hls
        norm_num at h13 hls
        omega

end ImmichSync

namespace ImmichSync

/-! ## Dict lemmas -/

theorem dictLookup_eq_none (q : Dict) (k : String) (h : k ∉ q.map Prod.fst) :
    dictLookup q k = none := by
  induction q with
  | nil => rfl
  | cons kv rest ih =>
    obtain ⟨k1, v⟩ := kv
    simp only [List.map_cons, List.mem_cons] at h
    push_neg at h
    simp [dictLookup, Ne.symm h.1, ih h.2]

theorem dictLookup_dictRemove_ne (q : Dict) (k0 k : String) (h : k ≠ k0) :
    dictLookup (dictRemove q k0) k = dictLookup q k := by
  induction q with
  | nil => rfl
  | cons kv rest ih =>
    obtain ⟨k1, v⟩ := kv
    by_cases h1 : k1 = k0
    · subst h1
      simp [dictRemove, dictLookup, Ne.symm h]
    · by_cases h2 : k1 = k <;> simp [dictRemove, dictLookup, h, h1, h2, ih]

theorem dictLookup_dictRemove_self (q : Dict) (k : String) (hwf : DictWF q) :
    dictLookup (dictRemove q k) k = none := by
  induction q with
  | nil => rfl
  | cons kv rest ih =>
    obtain ⟨k1, v⟩ := kv
    simp only [DictWF, List.map_cons, List.nodup_cons] at hwf
    by_cases h1 : k1 = k
    · subst h1
      simp only [dictRemove, if_pos rfl]
      exact dictLookup_eq_none rest k1 hwf.1
    · simp [dictRemove, dictLookup, h1, ih hwf.2]

theorem dictLookup_dictSet_self (q : Dict) (k : String) (v : Value) :
    dictLookup (dictSet q k v) k = some v := by
  induction q with
  | nil => simp [dictSet, dictLookup]
  | cons kv rest ih =>
    obtain ⟨k1, v1⟩ := kv
    by_cases h1 : k1 = k <;> simp [dictSet, dictLookup, h1, ih]

theorem dictLookup_dictSet_ne (q : Dict) (k0 k : String) (v : Value) (h : k ≠ k0) :
    dictLookup (dictSet q k0 v) k = dictLookup q k := by
  induction q with
  | nil => simp [dictSet, dictLookup, Ne.symm h]
  | cons kv rest ih =>
    obtain ⟨k1, v1⟩ := kv
    by_cases h1 : k1 = k0
    · subst h1
      simp [dictSet, dictLookup, Ne.symm h]
    · by_cases h2 : k1 = k <;> simp [dictSet, dictLookup, h, h1, h2, ih]

theorem dictRemove_sublist (q : Dict) (k : String) : (dictRemove q k).Sublist q := by
  induction q with
  | nil => simp [dictRemove]
  | cons kv rest ih =>
    obtain ⟨k1, v⟩ := kv
    by_cases h1 : k1 = k
    · simp only [dictRemove, if_pos h1]
      exact List.sublist_cons_self _ _
    · simp only [dictRemove, if_neg h1]
      exact ih.cons₂ _

theorem dictRemove_wf (q : Dict) (k : String) (hwf : DictWF q) : DictWF (dictRemove q k) :=
  List.Nodup.sublist ((dictRemove_sublist q k).map Prod.fst) hwf

theorem dictSet_cons_self (rest : Dict) (k : String) (v v1 : Value) :
    dictSet ((k, v1) :: rest) k v = (k, v) :: rest := by
  simp [dictSet]

theorem mem_keys_dictSet (q : Dict) (k : String) (v : Value) (k2 : String)
    (h : k2 ∈ (dictSet q k v).map Prod.fst) : k2 = k ∨ k2 ∈ q.map Prod.fst := by
  induction q with
  | nil => simpa [dictSet] using h
  | cons kv rest ih =>
    obtain ⟨k1, v1⟩ := kv
    by_cases h1 : k1 = k
    · subst h1
      rw [dictSet_cons_self] at h
      simp only [List.map_cons, List.mem_cons] at h ⊢
      tauto
    · simp only [dictSet, if_neg h1, List.map_cons, List.mem_cons] at h ⊢
      rcases h with h | h
      · tauto
      · rcases ih h with h | h <;> tauto

theorem dictSet_wf (q : Dict) (k : String) (v : Value) (hwf : DictWF q) :
    DictWF (dictSet q k v) := by
  induction q with
  | nil => simp [dictSet, DictWF]
  | cons kv rest ih =>
    obtain ⟨k1, v1⟩ := kv
    simp only [DictWF, List.map_cons, List.nodup_cons] at hwf
    by_cases h1 : k1 = k
    · subst h1
      rw [dictSet_cons_self]
      simp only [DictWF, List.map_cons, List.nodup_cons]
      exact hwf
    · simp only [dictSet, if_neg h1, DictWF, List.map_cons, List.nodup_cons]
      refine ⟨fun hm => ?_, ih hwf.2⟩
      rcases mem_keys_dictSet rest k v k1 hm with h | h
      · exact h1 h
      · exact hwf.1 h

/-! ## `Except` inversion -/

theorem except_bind_ok {α β : Type} {x : Except SyncError α} {f : α → Except SyncError β}
    {b : β} : (x >>= f) = Except.ok b ↔ ∃ a, x = Except.ok a ∧ f a = Except.ok b := by
  cases x <;> simp [Bind.bind, Except.bind]

theorem except_bind_err {α β : Type} {x : Except SyncError α} {f : α → Except SyncError β}
    {e : SyncError} :
    (x >>= f) = Except.error e ↔
      x = Except.error e ∨ ∃ a, x = Except.ok a ∧ f a = Except.error e := by
  cases x <;> simp [Bind.bind, Except.bind]

theorem except_map_ok {α β : Type} {x : Except SyncError α} {f : α → β} {b : β} :
    (x.map f) = Except.ok b ↔ ∃ a, x = Except.ok a ∧ f a = b := by
  cases x <;> simp [Except.map]

/-! ## Resolution-loop specification -/

/-- A reference string the code treats as unresolved: its optional id
is Python-falsy (`None`, or mapped to the empty string). -/
def refUnresolved (m : Mapping) (s : String) : Bool := optFalsy (resolveRef m s)

/-- The id attached for a reference that did resolve. -/
def refId (m : Mapping) (s : String) : String := (resolveRef m s).getD ""

theorem resolveLoop_strings (m : Mapping) (ss : List String) :
    resolveLoop m (ss.map Value.vStr) =
      Except.ok (ss.filterMap (fun s => if refUnresolved m s then none else some (refId m s)),
        ss.filter (fun s => refUnresolved m s)) := by
  induction ss with
  | nil => rfl
  | cons s rest ih =>
    simp only [List.map_cons, resolveLoop, ih, Except.map, List.filterMap_cons, List.filter_cons]
    cases hr : resolveRef m s with
    | none => simp [refUnresolved, optFalsy, hr]
    | some id =>
      by_cases hid : id = ""
      · simp [refUnresolved, optFalsy, hr, hid]
      · simp [refUnresolved, optFalsy, hr, hid, refId]

theorem resolveLoop_ok_strings (m : Mapping) (vals : List Value)
    (res unres : List String) :
    resolveLoop m vals = Except.ok (res, unres) →
      ∃ ss : List String, vals = ss.map Value.vStr := by
  induction vals generalizing res unres with
  | nil => intro _; exact ⟨[], rfl⟩
  | cons v rest ih =>
    intro h
    match v with
    | Value.vStr s =>
      simp only [resolveLoop] at h
      rw [except_map_ok] at h
      obtain ⟨⟨r0, u0⟩, hrest, _⟩ := h
      obtain ⟨ss, hss⟩ := ih r0 u0 hrest
      exact ⟨s :: ss, by simp [hss]⟩
    | Value.vStrList l => simp [resolveLoop] at h
    | Value.vBool b => simp [resolveLoop] at h
    | Value.vTs a b => simp [resolveLoop] at h
    | Value.vTsList l => simp [resolveLoop] at h
    | Value.vNone => simp [resolveLoop] at h
    | Value.vDT n => simp [resolveLoop] at h

/-! ## Date-parse validity -/

theorem parseMonthPart_bounds {cs : List Char} {m : Nat} (h : parseMonthPart cs = some m) :
    1 ≤ m ∧ m ≤ 12 := by
  unfold parseMonthPart at h
  split at h
  · split at h
    · split at h
      · next hb =>
        injection h with h
        subst h
        exact hb
      · exact absurd h (by simp)
    · exact absurd h (by simp)
  · exact absurd h (by simp)

theorem parseDayPart_pos {cs : List Char} {d : Nat} (h : parseDayPart cs = some d) :
    1 ≤ d := by
  unfold parseDayPart at h
  split at h
  · next c =>
    split at h
    · next hb =>
      injection h with h
      omega
    · exact absurd h (by simp)
  · split at h
    · split at h
      · split at h
        · next hb =>
          injection h with h
          omega
        · exact absurd h (by simp)
      · exact absurd h (by simp)
    · exact absurd h (by simp)

theorem parseDate_valid {s : String} {d : PyDate} (h : parseDate s = some d) :
    DateValid d := by
  unfold parseDate at h
  split at h
  · split at h
    · next hy hm hd =>
      split at h
      · next hc =>
        injection h with h
        subst h
        obtain ⟨hm1, hm2⟩ := parseMonthPart_bounds hm
        exact ⟨hc.1, hm1, hm2, parseDayPart_pos hd, hc.2⟩
      · exact absurd h (by simp)
    · exact absurd h (by simp)
  · exact absurd h (by simp)

theorem dateSeconds_nextDay {d : PyDate} (h : DateValid d) :
    dateSeconds d + 86400 = dateSeconds (nextDay d) := by
  unfold dateSeconds
  rw [toOrdinal_nextDay d h]
  ring

end ImmichSync

namespace ImmichSync

/-! ## Step-level lemmas -/

theorem stepPeople_ok_dict (q : Dict) (pm : Mapping) (andP : Option (List String)) (q1 : Dict)
    (h : stepPeople q pm = Except.ok (andP, q1)) :
    (q1 = q ∧ dictLookup q "people" = none) ∨ q1 = dictRemove q "people" := by
  unfold stepPeople at h
  cases hl : dictLookup q "people" with
  | none =>
    rw [hl] at h
    simp only [Except.ok.injEq, Prod.mk.injEq] at h
    exact Or.inl ⟨h.2.symm, rfl⟩
  | some v =>
    rw [hl] at h
    rw [except_bind_ok] at h
    obtain ⟨ru, hru, hif⟩ := h
    split at hif
    · simp only [Except.ok.injEq, Prod.mk.injEq] at hif
      exact Or.inr hif.2.symm
    · simp at hif

theorem stepAnyPeople_ok_dict (q : Dict) (pm : Mapping) (andP : Option (List String))
    (iters : List (Option String)) (uses : Bool) (q2 : Dict)
    (h : stepAnyPeople q pm andP = Except.ok (iters, uses, q2)) :
    (q2 = q ∧ dictLookup q "any_people" = none) ∨ q2 = dictRemove q "any_people" := by
  unfold stepAnyPeople at h
  split at h
  · next hl =>
    simp only [Except.ok.injEq, Prod.mk.injEq] at h
    exact Or.inl ⟨h.2.2.symm, hl⟩
  · next v hl =>
    split at h
    · simp at h
    · rw [except_bind_ok] at h
      obtain ⟨vals, hvals, h⟩ := h
      rw [except_bind_ok] at h
      obtain ⟨ru, hru, h⟩ := h
      split at h
      · split at h <;>
          (simp only [Except.ok.injEq, Prod.mk.injEq] at h; exact Or.inr h.2.2.symm)
      · simp at h

theorem stepTags_ok_dict (q : Dict) (tm : Mapping) (q3 : Dict)
    (h : stepTags q tm = Except.ok q3) :
    (q3 = q ∧ dictLookup q "tags" = none) ∨ q3 = dictRemove q "tags" ∨
      ∃ ids, q3 = dictSet (dictRemove q "tags") "tag_ids" (Value.vStrList ids) := by
  unfold stepTags at h
  cases hl : dictLookup q "tags" with
  | none =>
    rw [hl] at h
    simp only [Except.ok.injEq] at h
    exact Or.inl ⟨h.symm, rfl⟩
  | some v =>
    rw [hl] at h
    rw [except_bind_ok] at h
    obtain ⟨tagIds, hids, h⟩ := h
    split at h
    · simp at h
    · split at h
      · simp only [Except.ok.injEq] at h
        exact Or.inr (Or.inl h.symm)
      · simp only [Except.ok.injEq] at h
        exact Or.inr (Or.inr ⟨_, h.symm⟩)

theorem stepCountry_ok_dict (q : Dict) (cs : List Value) (q4 : Dict)
    (h : stepCountry q = Except.ok (cs, q4)) :
    (q4 = q ∧ dictLookup q "country" = none) ∨ q4 = dictRemove q "country" := by
  unfold stepCountry at h
  cases hl : dictLookup q "country" with
  | none =>
    rw [hl] at h
    simp only [Except.ok.injEq, Prod.mk.injEq] at h
    exact Or.inl ⟨h.2.symm, rfl⟩
  | some v =>
    rw [hl] at h
    cases v <;> simp only [Except.ok.injEq, Prod.mk.injEq] at h <;>
      first
        | exact Or.inr h.2.symm
        | simp at h

theorem stepTimespan_ok_dict (q : Dict) (ts : List Value) (q5 : Dict)
    (h : stepTimespan q = Except.ok (ts, q5)) :
    (q5 = q ∧ dictLookup q "timespan" = none) ∨ q5 = dictRemove q "timespan" := by
  unfold stepTimespan at h
  cases hl : dictLookup q "timespan" with
  | none =>
    rw [hl] at h
    simp only [Except.ok.injEq, Prod.mk.injEq] at h
    exact Or.inl ⟨h.2.symm, rfl⟩
  | some v =>
    rw [hl] at h
    cases v <;> simp only [Except.ok.injEq, Prod.mk.injEq] at h <;>
      first
        | exact Or.inr h.2.symm
        | simp at h

/-! ## Branch-count lemmas -/

theorem stepAnyPeople_ok_length (q : Dict) (pm : Mapping) (andP : Option (List String))
    (iters : List (Option String)) (uses : Bool) (q2 : Dict)
    (h : stepAnyPeople q pm andP = Except.ok (iters, uses, q2)) :
    iters.length = orBranchCount q pm := by
  unfold stepAnyPeople at h
  unfold orBranchCount
  split at h
  · next hl =>
    simp only [Except.ok.injEq, Prod.mk.injEq] at h
    rw [← h.1]
    rfl
  · next v hl =>
    split at h
    · simp at h
    · rw [except_bind_ok] at h
      obtain ⟨vals, hvals, h⟩ := h
      rw [except_bind_ok] at h
      obtain ⟨ru, hru, h⟩ := h
      simp only [hvals, hru]
      split at h
      · split at h
        · next hres =>
          simp only [Except.ok.injEq, Prod.mk.injEq] at h
          rw [← h.1]
          simp only [List.length_singleton]
          rw [List.isEmpty_iff] at hres
          simp [hres]
        · next hres =>
          simp only [Except.ok.injEq, Prod.mk.injEq] at h
          rw [← h.1, List.length_map]
          have : ru.1.length ≠ 0 := by
            intro h0
            exact hres (List.isEmpty_iff.mpr (List.length_eq_zero.mp h0))
          omega
      · simp at h

theorem stepCountry_ok_length (q : Dict) (cs : List Value) (q4 : Dict)
    (h : stepCountry q = Except.ok (cs, q4)) :
    cs.length = countryBranchCount q := by
  unfold stepCountry at h
  unfold countryBranchCount
  cases hl : dictLookup q "country" with
  | none =>
    rw [hl] at h
    simp only [Except.ok.injEq, Prod.mk.injEq] at h
    rw [← h.1]
    rfl
  | some v =>
    rw [hl] at h
    cases v <;> simp only [Except.ok.injEq, Prod.mk.injEq] at h <;>
      first
        | (rw [← h.1]; simp)
        | simp at h

theorem processTimespans_ok_length (l : List Value) (ts : List TsParam)
    (h : processTimespans l = Except.ok ts) : ts.length = l.length := by
  induction l generalizing ts with
  | nil =>
    unfold processTimespans at h
    simp only [Except.ok.injEq] at h
    simp [← h]
  | cons v rest ih =>
    unfold processTimespans at h
    rw [except_bind_ok] at h
    obtain ⟨p, hp, h⟩ := h
    rw [except_bind_ok] at h
    obtain ⟨ps, hps, h⟩ := h
    simp only [Except.ok.injEq] at h
    rw [← h]
    simp [ih ps hps]

theorem stepTimespan_ok_count (q : Dict) (ts : List Value) (q5 : Dict)
    (h : stepTimespan q = Except.ok (ts, q5)) :
    max 1 ts.length = timespanBranchCount q := by
  unfold stepTimespan at h
  unfold timespanBranchCount
  cases hl : dictLookup q "timespan" with
  | none =>
    rw [hl] at h
    simp only [Except.ok.injEq, Prod.mk.injEq] at h
    rw [← h.1]
    rfl
  | some v =>
    rw [hl] at h
    cases v <;> simp only [Except.ok.injEq, Prod.mk.injEq] at h <;>
      first
        | (rw [← h.1]; simp)
        | simp at h

theorem length_default_if_empty (l : List TsParam) :
    (if l.isEmpty then [((none : Option Nat), (none : Option Nat))] else l).length =
      max 1 l.length := by
  cases l <;> simp

theorem length_tripleProduct {α β γ δ : Type} (cs : List α) (ts : List β) (os : List γ)
    (f : α → β → γ → δ) :
    (cs.flatMap (fun c => ts.flatMap (fun t => os.map (f c t)))).length =
      cs.length * ts.length * os.length := by
  have inner : ∀ (c : α), (ts.flatMap (fun t => os.map (f c t))).length =
      ts.length * os.length := by
    intro c
    induction ts with
    | nil => simp
    | cons t rest ih =>
      simp only [List.flatMap_cons, List.length_append, List.length_map, ih,
        List.length_cons, Nat.succ_mul]
      omega
  induction cs with
  | nil => simp
  | cons c rest ih =>
    simp [List.flatMap_cons, inner, ih, Nat.succ_mul]
    ring

end ImmichSync

namespace ImmichSync

def isRemoveCall : ApiCall → Bool
  | ApiCall.removeAssets _ _ => true
  | _ => false

def isAddCall : ApiCall → Bool
  | ApiCall.addAssets _ _ => true
  | _ => false

/-- C5: reconciliation is the pair of set differences
`to_add = desired \ current`, `to_remove = current \ desired`; hence
`to_add` is disjoint from `current`, `to_remove` is disjoint from
`desired`, removing `to_remove` from `current` and adding `to_add`
yields exactly `desired`, and equal inputs give an empty plan. -/
theorem spec_c5 (desired current : Finset String) :
    Disjoint (reconcilePlan desired current).1 current ∧
    Disjoint (reconcilePlan desired current).2 desired ∧
    (current \ (reconcilePlan desired current).2) ∪ (reconcilePlan desired current).1 = desired ∧
    (desired = current →
      (reconcilePlan desired current).1 = ∅ ∧ (reconcilePlan desired current).2 = ∅) := by
  refine ⟨Finset.sdiff_disjoint, Finset.sdiff_disjoint, ?_, ?_⟩
  · show (current \ (current \ desired)) ∪ (desired \ current) = desired
    rw [Finset.sdiff_sdiff_self_left, Finset.inter_comm, Finset.union_comm]
    exact Finset.sdiff_union_inter desired current
  · rintro rfl
    exact ⟨Finset.sdiff_self desired, Finset.sdiff_self desired⟩

/-- Witness for C5 at the concrete equal sets `{"a"}`. -/
theorem spec_c5_witness :
    Disjoint (reconcilePlan {"a"} {"a"}).1 ({"a"} : Finset String) ∧
    Disjoint (reconcilePlan {"a"} {"a"}).2 ({"a"} : Finset String) ∧
    (({"a"} : Finset String) \ (reconcilePlan {"a"} {"a"}).2) ∪ (reconcilePlan {"a"} {"a"}).1 =
      ({"a"} : Finset String) ∧
    ((reconcilePlan {"a"} {"a"}).1 = ∅ ∧ (reconcilePlan {"a"} {"a"}).2 = ∅) := by
  obtain ⟨h1, h2, h3, h4⟩ := spec_c5 {"a"} {"a"}
  exact ⟨h1, h2, h3, h4 rfl⟩

/-- C9: applying a reconciliation plan issues exactly one removal call
carrying all of `to_remove` when it is non-empty and none otherwise,
exactly one addition call carrying all of `to_add` when it is non-empty
and none otherwise, and every removal call precedes every addition
call. -/
theorem spec_c9 (albumId : String) (toRemove toAdd : Finset String) :
    ((applyPlanCalls albumId toRemove toAdd).filter isRemoveCall =
      if toRemove = ∅ then [] else [ApiCall.removeAssets albumId toRemove]) ∧
    ((applyPlanCalls albumId toRemove toAdd).filter isAddCall =
      if toAdd = ∅ then [] else [ApiCall.addAssets albumId toAdd]) ∧
    ((applyPlanCalls albumId toRemove toAdd).filter isRemoveCall ++
      (applyPlanCalls albumId toRemove toAdd).filter isAddCall =
      applyPlanCalls albumId toRemove toAdd) := by
  unfold applyPlanCalls
  by_cases hr : toRemove = ∅ <;> by_cases ha : toAdd = ∅ <;>
    simp [hr, ha, isRemoveCall, isAddCall]

/-- C1, counterexample: `timespan` present as an empty list has `t = 0`
entries, so the claim demands `c * t * p = 1 * 0 * 1 = 0` atomic
queries, but the code falls back to the single unconstrained timespan
branch and yields one query. -/
theorem spec_c1_counterexample :
    config_query_body [("timespan", Value.vTsList [])] [] [] = Except.ok ([[]], []) ∧
    countryBranchCount [("timespan", Value.vTsList [])] *
      (timespanEntryCount [("timespan", Value.vTsList [])] *
        orBranchCount [("timespan", Value.vTsList [])] []) = 0 := by
  exact ⟨rfl, rfl⟩

/-- C3, counterexample: with `people` present as an empty list and
`any_people` present, no `ConfigConflict` is raised at all — the
expansion succeeds, because the conflict test `if and_person_params:`
only fires when `people` resolved to a non-empty constraint. -/
theorem spec_c3_counterexample :
    config_query_body
      [("people", Value.vStrList []),
       ("any_people", Value.vStrList ["12345678-1234-1234-1234-123456789abc"])] [] [] =
    Except.ok ([[("person_ids",
      Value.vStrList ["12345678-1234-1234-1234-123456789abc"])]], []) := by
  rfl

/-- C4, counterexample: expanding `{"country": "FR"}` pops the
`country` key from the caller-owned dict — the final dict is empty, not
the original mapping. -/
theorem spec_c4_counterexample :
    config_query_body [("country", Value.vStr "FR")] [] [] =
      Except.ok ([[("country", Value.vStr "FR")]], []) ∧
    ([] : Dict) ≠ [("country", Value.vStr "FR")] := by
  exact ⟨rfl, by decide⟩

/-- C7, counterexample: an inverted timespan (`start` after `end`) is
not rejected — the code performs no inversion check, and expansion
succeeds with a degenerate range instead of raising
`MalformedTimespan`. -/
theorem spec_c7_counterexample :
    config_query_body [("timespan", Value.vTs "2024-01-02" "2024-01-01")] [] [] =
      Except.ok ([[("before", Value.vDT (dateSeconds ⟨2024, 1, 2⟩)),
                   ("after", Value.vDT (dateSeconds ⟨2024, 1, 2⟩))]], []) ∧
    dateSeconds ⟨2024, 1, 1⟩ < dateSeconds ⟨2024, 1, 2⟩ := by
  exact ⟨rfl, by decide⟩

end ImmichSync

namespace ImmichSync

theorem processTimespans_single (s e : String) (ds de : PyDate)
    (hs : parseDate s = some ds) (he : parseDate e = some de)
    (hov : toOrdinal de + 1 ≤ maxOrdinal) :
    processTimespans [Value.vTs s e] =
      Except.ok [(some (dateSeconds de + 86400), some (dateSeconds ds))] := by
  have hno : ¬ maxOrdinal < toOrdinal de + 1 := by omega
  simp [processTimespans, processOneTimespan, hs, he, hno, Bind.bind, Except.bind]

/-- C2 (amended): a well-formed timespan entry `{start, end}` whose end
date is before 9999-12-31 (so that end + one day is representable)
produces exactly `after` = the start date at midnight and `before` =
the calendar day after the end date at midnight: the code's
`strptime(end) + timedelta(hours=24)` equals midnight of `nextDay end`
for every valid parsed date. At end = 9999-12-31 the addition raises an
uncaught `OverflowError` instead of producing a query (see the
counterexample). -/
theorem spec_c2 (s e : String) (ds de : PyDate)
    (hs : parseDate s = some ds) (he : parseDate e = some de)
    (hov : toOrdinal de + 1 ≤ maxOrdinal) (pm tm : Mapping) :
    config_query_body [("timespan", Value.vTs s e)] pm tm =
      Except.ok ([[("before", Value.vDT (dateSeconds (nextDay de))),
                   ("after", Value.vDT (dateSeconds ds))]], []) := by
  have hpt := processTimespans_single s e ds de hs he hov
  rw [← dateSeconds_nextDay (parseDate_valid he)]
  simp [config_query_body, stepPeople, stepAnyPeople, stepTags, stepCountry, stepTimespan,
    dictLookup, dictRemove, hpt, Bind.bind, Except.bind, buildSub, dictSet, optDT]

/-- Witness for C2: `{start: 2024-01-01, end: 2024-01-01}` gives
`after` = 2024-01-01T00:00:00 and `before` = 2024-01-02T00:00:00. -/
theorem spec_c2_witness :
    config_query_body [("timespan", Value.vTs "2024-01-01" "2024-01-01")] [] [] =
      Except.ok ([[("before", Value.vDT (dateSeconds ⟨2024, 1, 2⟩)),
                   ("after", Value.vDT (dateSeconds ⟨2024, 1, 1⟩))]], []) := by
  have h := spec_c2 "2024-01-01" "2024-01-01" ⟨2024, 1, 1⟩ ⟨2024, 1, 1⟩ rfl rfl (by decide) [] []
  simpa [nextDay, daysInMonth] using h

/-- C2, counterexample: `{start: 9999-12-31, end: 9999-12-31}` is a
well-formed timespan, but the code raises an uncaught `OverflowError`
from `strptime(end) + timedelta(hours=24)` instead of producing the
claimed atomic query. -/
theorem spec_c2_counterexample :
    parseDate "9999-12-31" = some ⟨9999, 12, 31⟩ ∧
    config_query_body [("timespan", Value.vTs "9999-12-31" "9999-12-31")] [] [] =
      Except.error (SyncError.dateOverflow "9999-12-31") := by
  exact ⟨rfl, rfl⟩

end ImmichSync

namespace ImmichSync

theorem stepPeople_lookup (q : Dict) (pm : Mapping) (andP : Option (List String)) (q1 : Dict)
    (h : stepPeople q pm = Except.ok (andP, q1)) (k : String) (hk : k ≠ "people") :
    dictLookup q1 k = dictLookup q k := by
  rcases stepPeople_ok_dict q pm andP q1 h with ⟨rfl, _⟩ | rfl
  · rfl
  · exact dictLookup_dictRemove_ne q "people" k hk

theorem stepAnyPeople_lookup (q : Dict) (pm : Mapping) (andP : Option (List String))
    (iters : List (Option String)) (uses : Bool) (q2 : Dict)
    (h : stepAnyPeople q pm andP = Except.ok (iters, uses, q2)) (k : String)
    (hk : k ≠ "any_people") : dictLookup q2 k = dictLookup q k := by
  rcases stepAnyPeople_ok_dict q pm andP iters uses q2 h with ⟨rfl, _⟩ | rfl
  · rfl
  · exact dictLookup_dictRemove_ne q "any_people" k hk

theorem stepTags_lookup (q : Dict) (tm : Mapping) (q3 : Dict)
    (h : stepTags q tm = Except.ok q3) (k : String) (hk1 : k ≠ "tags")
    (hk2 : k ≠ "tag_ids") : dictLookup q3 k = dictLookup q k := by
  rcases stepTags_ok_dict q tm q3 h with ⟨rfl, _⟩ | rfl | ⟨ids, rfl⟩
  · rfl
  · exact dictLookup_dictRemove_ne q "tags" k hk1
  · rw [dictLookup_dictSet_ne _ "tag_ids" k _ hk2]
    exact dictLookup_dictRemove_ne q "tags" k hk1

theorem stepCountry_lookup (q : Dict) (cs : List Value) (q4 : Dict)
    (h : stepCountry q = Except.ok (cs, q4)) (k : String) (hk : k ≠ "country") :
    dictLookup q4 k = dictLookup q k := by
  rcases stepCountry_ok_dict q cs q4 h with ⟨rfl, _⟩ | rfl
  · rfl
  · exact dictLookup_dictRemove_ne q "country" k hk

theorem stepTimespan_lookup (q : Dict) (ts : List Value) (q5 : Dict)
    (h : stepTimespan q = Except.ok (ts, q5)) (k : String) (hk : k ≠ "timespan") :
    dictLookup q5 k = dictLookup q k := by
  rcases stepTimespan_ok_dict q ts q5 h with ⟨rfl, _⟩ | rfl
  · rfl
  · exact dictLookup_dictRemove_ne q "timespan" k hk

theorem countryBranchCount_congr (q q2 : Dict)
    (h : dictLookup q2 "country" = dictLookup q "country") :
    countryBranchCount q2 = countryBranchCount q := by
  unfold countryBranchCount
  rw [h]

theorem timespanBranchCount_congr (q q2 : Dict)
    (h : dictLookup q2 "timespan" = dictLookup q "timespan") :
    timespanBranchCount q2 = timespanBranchCount q := by
  unfold timespanBranchCount
  rw [h]

theorem orBranchCount_congr (q q2 : Dict) (pm : Mapping)
    (h : dictLookup q2 "any_people" = dictLookup q "any_people") :
    orBranchCount q2 pm = orBranchCount q pm := by
  unfold orBranchCount
  rw [h]

/-- C1 (amended): a successful expansion yields exactly
`c * t' * p` atomic queries, where `c` is the country branch count
(1 when absent or a single string, the list length otherwise — so 0 for
an empty list), `t'` is the timespan branch count (1 when absent, when
a single dict, or when the entry list is empty; the list length
otherwise), and `p` is the OR-person branch count (1 when `any_people`
is absent or resolves to no identifiers, else the resolved count). -/
theorem spec_c1 (q : Dict) (pm tm : Mapping) (out : List Dict) (qf : Dict)
    (h : config_query_body q pm tm = Except.ok (out, qf)) :
    out.length = countryBranchCount q * (timespanBranchCount q * orBranchCount q pm) := by
  unfold config_query_body at h
  rw [except_bind_ok] at h
  obtain ⟨⟨andP, q1⟩, h1, h⟩ := h
  rw [except_bind_ok] at h
  obtain ⟨⟨iters, uses, q2⟩, h2, h⟩ := h
  rw [except_bind_ok] at h
  obtain ⟨q3, h3, h⟩ := h
  rw [except_bind_ok] at h
  obtain ⟨⟨cs, q4⟩, h4, h⟩ := h
  rw [except_bind_ok] at h
  obtain ⟨⟨tsRaw, q5⟩, h5, h⟩ := h
  rw [except_bind_ok] at h
  obtain ⟨ts0, h6, h⟩ := h
  simp only [Except.ok.injEq, Prod.mk.injEq] at h
  obtain ⟨hout, -⟩ := h
  rw [← hout, length_tripleProduct, length_default_if_empty]
  have hts0 : ts0.length = tsRaw.length := processTimespans_ok_length tsRaw ts0 h6
  have hcs : cs.length = countryBranchCount q3 := stepCountry_ok_length q3 cs q4 h4
  have htsc : max 1 tsRaw.length = timespanBranchCount q4 := stepTimespan_ok_count q4 tsRaw q5 h5
  have hor : iters.length = orBranchCount q1 pm := stepAnyPeople_ok_length q1 pm andP iters uses q2 h2
  have hc3 : countryBranchCount q3 = countryBranchCount q := by
    apply countryBranchCount_congr
    rw [stepTags_lookup q2 tm q3 h3 "country" (by decide) (by decide),
      stepAnyPeople_lookup q1 pm andP iters uses q2 h2 "country" (by decide),
      stepPeople_lookup q pm andP q1 h1 "country" (by decide)]
  have ht4 : timespanBranchCount q4 = timespanBranchCount q := by
    apply timespanBranchCount_congr
    rw [stepCountry_lookup q3 cs q4 h4 "timespan" (by decide),
      stepTags_lookup q2 tm q3 h3 "timespan" (by decide) (by decide),
      stepAnyPeople_lookup q1 pm andP iters uses q2 h2 "timespan" (by decide),
      stepPeople_lookup q pm andP q1 h1 "timespan" (by decide)]
  have ho1 : orBranchCount q1 pm = orBranchCount q pm := by
    apply orBranchCount_congr
    rw [stepPeople_lookup q pm andP q1 h1 "any_people" (by decide)]
  rw [hts0, hcs, htsc, hor, hc3, ht4, ho1, Nat.mul_assoc]

/-- Witness for C1 at a two-country expression: 2 queries = 2 * (1 * 1). -/
theorem spec_c1_witness :
    ([[("country", Value.vStr "FR")], [("country", Value.vStr "DE")]] : List Dict).length =
      countryBranchCount [("country", Value.vStrList ["FR", "DE"])] *
        (timespanBranchCount [("country", Value.vStrList ["FR", "DE"])] *
          orBranchCount [("country", Value.vStrList ["FR", "DE"])] []) :=
  spec_c1 [("country", Value.vStrList ["FR", "DE"])] [] []
    [[("country", Value.vStr "FR")], [("country", Value.vStr "DE")]] [] rfl

end ImmichSync

namespace ImmichSync

theorem resolved_filterMap (pm : Mapping) (ss : List String)
    (hall : ∀ s ∈ ss, refUnresolved pm s = false) :
    ss.filterMap (fun s => if refUnresolved pm s then none else some (refId pm s)) =
      ss.map (refId pm) := by
  induction ss with
  | nil => rfl
  | cons s rest ih =>
    have hs := hall s (List.mem_cons_self s rest)
    simp only [List.filterMap_cons, List.map_cons, hs, Bool.false_eq_true, if_false]
    rw [ih (fun x hx => hall x (List.mem_cons_of_mem s hx))]

theorem stepPeople_resolved (q : Dict) (pm : Mapping) (ss : List String)
    (hp : dictLookup q "people" = some (Value.vStrList ss))
    (hall : ∀ s ∈ ss, refUnresolved pm s = false) (hne : ss ≠ []) :
    stepPeople q pm = Except.ok (some (ss.map (refId pm)), dictRemove q "people") := by
  unfold stepPeople
  rw [hp]
  have hfil : ss.filter (fun s => refUnresolved pm s) = [] :=
    List.filter_eq_nil_iff.mpr (fun s hs => by simp [hall s hs])
  simp only [listifyRefs, resolveLoop_strings, resolved_filterMap pm ss hall, hfil,
    Bind.bind, Except.bind, List.isEmpty_nil]
  have hmne : ss.map (refId pm) ≠ [] := by
    cases ss
    · exact absurd rfl hne
    · simp
  simp [List.isEmpty_iff, hmne]

/-- C3 (amended): when both `people` and `any_people` are present and
every `people` entry resolves (to at least one identifier), expansion
raises `ConfigConflict`. The conflict test runs after `people` is
resolved, so it is not raised "before either field is processed": an
unresolvable `people` entry raises the unresolved-names error instead,
and a `people` value that contributes no constraint (an empty list)
raises nothing (see the counterexample). -/
theorem spec_c3 (q : Dict) (pm tm : Mapping) (ss : List String)
    (hp : dictLookup q "people" = some (Value.vStrList ss))
    (hall : ∀ s ∈ ss, refUnresolved pm s = false)
    (hne : ss ≠ [])
    (hany : (dictLookup q "any_people").isSome) :
    config_query_body q pm tm = Except.error SyncError.configConflict := by
  have h1 := stepPeople_resolved q pm ss hp hall hne
  have hany1 : (dictLookup (dictRemove q "people") "any_people").isSome := by
    rw [dictLookup_dictRemove_ne q "people" "any_people" (by decide)]
    exact hany
  unfold config_query_body
  rw [h1]
  obtain ⟨v, hv⟩ := Option.isSome_iff_exists.mp hany1
  have h2 : stepAnyPeople (dictRemove q "people") pm (some (ss.map (refId pm))) =
      Except.error SyncError.configConflict := by
    unfold stepAnyPeople
    simp [hv]
  simp [h2, Bind.bind, Except.bind]

/-- Witness for C3 at a resolvable one-person `people` list plus `any_people`. -/
theorem spec_c3_witness :
    config_query_body
      [("people", Value.vStrList ["11111111-1111-1111-1111-111111111111"]),
       ("any_people", Value.vStrList ["x"])] [] [] =
      Except.error SyncError.configConflict :=
  spec_c3 _ [] [] ["11111111-1111-1111-1111-111111111111"] rfl (by decide) (by decide) rfl

end ImmichSync

namespace ImmichSync

theorem stepPeople_self (q : Dict) (pm : Mapping) (andP : Option (List String)) (q1 : Dict)
    (hwf : DictWF q) (h : stepPeople q pm = Except.ok (andP, q1)) :
    dictLookup q1 "people" = none := by
  rcases stepPeople_ok_dict q pm andP q1 h with ⟨rfl, hn⟩ | rfl
  · exact hn
  · exact dictLookup_dictRemove_self q "people" hwf

theorem stepAnyPeople_self (q : Dict) (pm : Mapping) (andP : Option (List String))
    (iters : List (Option String)) (uses : Bool) (q2 : Dict) (hwf : DictWF q)
    (h : stepAnyPeople q pm andP = Except.ok (iters, uses, q2)) :
    dictLookup q2 "any_people" = none := by
  rcases stepAnyPeople_ok_dict q pm andP iters uses q2 h with ⟨rfl, hn⟩ | rfl
  · exact hn
  · exact dictLookup_dictRemove_self q "any_people" hwf

theorem stepTags_self (q : Dict) (tm : Mapping) (q3 : Dict) (hwf : DictWF q)
    (h : stepTags q tm = Except.ok q3) : dictLookup q3 "tags" = none := by
  rcases stepTags_ok_dict q tm q3 h with ⟨rfl, hn⟩ | rfl | ⟨ids, rfl⟩
  · exact hn
  · exact dictLookup_dictRemove_self q "tags" hwf
  · rw [dictLookup_dictSet_ne _ "tag_ids" "tags" _ (by decide)]
    exact dictLookup_dictRemove_self q "tags" hwf

theorem stepCountry_self (q : Dict) (cs : List Value) (q4 : Dict) (hwf : DictWF q)
    (h : stepCountry q = Except.ok (cs, q4)) : dictLookup q4 "country" = none := by
  rcases stepCountry_ok_dict q cs q4 h with ⟨rfl, hn⟩ | rfl
  · exact hn
  · exact dictLookup_dictRemove_self q "country" hwf

theorem stepTimespan_self (q : Dict) (ts : List Value) (q5 : Dict) (hwf : DictWF q)
    (h : stepTimespan q = Except.ok (ts, q5)) : dictLookup q5 "timespan" = none := by
  rcases stepTimespan_ok_dict q ts q5 h with ⟨rfl, hn⟩ | rfl
  · exact hn
  · exact dictLookup_dictRemove_self q "timespan" hwf

theorem stepPeople_wf (q : Dict) (pm : Mapping) (andP : Option (List String)) (q1 : Dict)
    (hwf : DictWF q) (h : stepPeople q pm = Except.ok (andP, q1)) : DictWF q1 := by
  rcases stepPeople_ok_dict q pm andP q1 h with ⟨rfl, _⟩ | rfl
  · exact hwf
  · exact dictRemove_wf q "people" hwf

theorem stepAnyPeople_wf (q : Dict) (pm : Mapping) (andP : Option (List String))
    (iters : List (Option String)) (uses : Bool) (q2 : Dict) (hwf : DictWF q)
    (h : stepAnyPeople q pm andP = Except.ok (iters, uses, q2)) : DictWF q2 := by
  rcases stepAnyPeople_ok_dict q pm andP iters uses q2 h with ⟨rfl, _⟩ | rfl
  · exact hwf
  · exact dictRemove_wf q "any_people" hwf

theorem stepTags_wf (q : Dict) (tm : Mapping) (q3 : Dict) (hwf : DictWF q)
    (h : stepTags q tm = Except.ok q3) : DictWF q3 := by
  rcases stepTags_ok_dict q tm q3 h with ⟨rfl, _⟩ | rfl | ⟨ids, rfl⟩
  · exact hwf
  · exact dictRemove_wf q "tags" hwf
  · exact dictSet_wf _ _ _ (dictRemove_wf q "tags" hwf)

theorem stepCountry_wf (q : Dict) (cs : List Value) (q4 : Dict) (hwf : DictWF q)
    (h : stepCountry q = Except.ok (cs, q4)) : DictWF q4 := by
  rcases stepCountry_ok_dict q cs q4 h with ⟨rfl, _⟩ | rfl
  · exact hwf
  · exact dictRemove_wf q "country" hwf

/-- C4 (amended): expansion is a deterministic function of the
expression value, but it does mutate the caller-owned mapping: on a
successful full run the keys `people`, `any_people`, `tags`, `country`
and `timespan` have been consumed (popped), a `tag_ids` key may have
been written, and every other key is left unchanged. (The original
claim — that no key is removed or rewritten — is refuted by the
counterexample.) -/
theorem spec_c4 (q : Dict) (pm tm : Mapping) (out : List Dict) (qf : Dict)
    (hwf : DictWF q) (h : config_query_body q pm tm = Except.ok (out, qf)) :
    (∀ k, k ≠ "people" → k ≠ "any_people" → k ≠ "tags" → k ≠ "country" →
      k ≠ "timespan" → k ≠ "tag_ids" → dictLookup qf k = dictLookup q k) ∧
    dictLookup qf "people" = none ∧ dictLookup qf "any_people" = none ∧
    dictLookup qf "tags" = none ∧ dictLookup qf "country" = none ∧
    dictLookup qf "timespan" = none := by
  unfold config_query_body at h
  rw [except_bind_ok] at h
  obtain ⟨⟨andP, q1⟩, h1, h⟩ := h
  rw [except_bind_ok] at h
  obtain ⟨⟨iters, uses, q2⟩, h2, h⟩ := h
  rw [except_bind_ok] at h
  obtain ⟨q3, h3, h⟩ := h
  rw [except_bind_ok] at h
  obtain ⟨⟨cs, q4⟩, h4, h⟩ := h
  rw [except_bind_ok] at h
  obtain ⟨⟨tsRaw, q5⟩, h5, h⟩ := h
  rw [except_bind_ok] at h
  obtain ⟨ts0, h6, h⟩ := h
  simp only [Except.ok.injEq, Prod.mk.injEq] at h
  obtain ⟨-, hqf⟩ := h
  subst hqf
  have hwf1 : DictWF q1 := stepPeople_wf q pm andP q1 hwf h1
  have hwf2 : DictWF q2 := stepAnyPeople_wf q1 pm andP iters uses q2 hwf1 h2
  have hwf3 : DictWF q3 := stepTags_wf q2 tm q3 hwf2 h3
  have hwf4 : DictWF q4 := stepCountry_wf q3 cs q4 hwf3 h4
  refine ⟨fun k hk1 hk2 hk3 hk4 hk5 hk6 => ?_, ?_, ?_, ?_, ?_, ?_⟩
  · rw [stepTimespan_lookup q4 tsRaw q5 h5 k hk5, stepCountry_lookup q3 cs q4 h4 k hk4,
      stepTags_lookup q2 tm q3 h3 k hk3 hk6, stepAnyPeople_lookup q1 pm andP iters uses q2 h2 k hk2,
      stepPeople_lookup q pm andP q1 h1 k hk1]
  · rw [stepTimespan_lookup q4 tsRaw q5 h5 _ (by decide), stepCountry_lookup q3 cs q4 h4 _ (by decide),
      stepTags_lookup q2 tm q3 h3 _ (by decide) (by decide),
      stepAnyPeople_lookup q1 pm andP iters uses q2 h2 _ (by decide)]
    exact stepPeople_self q pm andP q1 hwf h1
  · rw [stepTimespan_lookup q4 tsRaw q5 h5 _ (by decide), stepCountry_lookup q3 cs q4 h4 _ (by decide),
      stepTags_lookup q2 tm q3 h3 _ (by decide) (by decide)]
    exact stepAnyPeople_self q1 pm andP iters uses q2 hwf1 h2
  · rw [stepTimespan_lookup q4 tsRaw q5 h5 _ (by decide), stepCountry_lookup q3 cs q4 h4 _ (by decide)]
    exact stepTags_self q2 tm q3 hwf2 h3
  · rw [stepTimespan_lookup q4 tsRaw q5 h5 _ (by decide)]
    exact stepCountry_self q3 cs q4 hwf3 h4
  · exact stepTimespan_self q4 tsRaw q5 hwf4 h5

/-- Witness for C4: expanding `{"country": "FR", "favorite": true}`
leaves `favorite` alone and consumes `country`. -/
theorem spec_c4_witness :
    dictLookup ([("favorite", Value.vBool true)] : Dict) "favorite" =
      dictLookup [("country", Value.vStr "FR"), ("favorite", Value.vBool true)] "favorite" ∧
    dictLookup ([("favorite", Value.vBool true)] : Dict) "country" = none := by
  have h := spec_c4 [("country", Value.vStr "FR"), ("favorite", Value.vBool true)] [] []
    [[("country", Value.vStr "FR"), ("favorite", Value.vBool true)]]
    [("favorite", Value.vBool true)] (by unfold DictWF; decide) rfl
  exact ⟨h.1 "favorite" (by decide) (by decide) (by decide) (by decide) (by decide) (by decide),
    h.2.2.2.2.1⟩

end ImmichSync

namespace ImmichSync

theorem lookupM_mem (m : Mapping) (s id : String) (h : lookupM m s = some id) : (s, id) ∈ m := by
  induction m with
  | nil => simp [lookupM] at h
  | cons p rest ih =>
    obtain ⟨k1, v1⟩ := p
    by_cases h1 : k1 = s
    · subst h1
      simp only [lookupM, if_true, eq_self_iff_true, Option.some.injEq] at h
      subst h
      exact List.mem_cons_self _ _
    · simp only [lookupM, if_neg h1] at h
      exact List.mem_cons_of_mem _ (ih h)

/-- Under a mapping whose ids are all non-empty (as real Immich ids
are), the code's falsy test coincides with failed resolution. -/
theorem refUnresolved_iff_none (pm : Mapping) (hpm : ∀ p ∈ pm, p.2 ≠ "") (s : String) :
    refUnresolved pm s = (resolveRef pm s).isNone := by
  unfold refUnresolved optFalsy resolveRef
  by_cases hu : is_valid_uuid s
  · have hs : s ≠ "" := by
      intro he
      subst he
      exact absurd hu (by decide)
    simp [hu, hs]
  · simp only [hu, Bool.false_eq_true, if_false]
    cases hl : lookupM pm s with
    | none => rfl
    | some id =>
      have := hpm (s, id) (lookupM_mem pm s id hl)
      simp [this]

theorem filter_refUnresolved_eq (pm : Mapping) (hpm : ∀ p ∈ pm, p.2 ≠ "") (ss : List String) :
    ss.filter (fun s => refUnresolved pm s) = ss.filter (fun s => (resolveRef pm s).isNone) := by
  apply List.filter_congr
  intro s _
  exact refUnresolved_iff_none pm hpm s

theorem filter_ne_nil_of_mem {ss : List String} {p : String → Bool} {s : String}
    (hs : s ∈ ss) (hp : p s = true) : ss.filter p ≠ [] := by
  intro hnil
  have := List.mem_filter.mpr ⟨hs, hp⟩
  rw [hnil] at this
  exact absurd this (List.not_mem_nil s)

theorem stepPeople_unresolved (q : Dict) (pm : Mapping) (ss : List String)
    (hp : dictLookup q "people" = some (Value.vStrList ss))
    (hex : ∃ s ∈ ss, refUnresolved pm s = true) :
    stepPeople q pm =
      Except.error (SyncError.unresolvedPeople (ss.filter (fun s => refUnresolved pm s))) := by
  unfold stepPeople
  rw [hp]
  obtain ⟨s, hs, hu⟩ := hex
  have hne : ss.filter (fun s => refUnresolved pm s) ≠ [] := filter_ne_nil_of_mem hs hu
  simp [listifyRefs, resolveLoop_strings, Bind.bind, Except.bind, List.isEmpty_iff, hne]

theorem tagLoop_strings (tm : Mapping) (ss : List String) :
    tagLoop tm (ss.map Value.vStr) = Except.ok (ss.map (resolveRef tm)) := by
  induction ss with
  | nil => rfl
  | cons s rest ih => simp [tagLoop, ih, Except.map]

theorem tags_invalid_eq (tm : Mapping) (ss : List String) :
    ((ss.map Value.vStr).zip (ss.map (resolveRef tm))).filterMap (fun p =>
        match p with
        | (Value.vStr s, pid) => if optFalsy pid then some s else none
        | _ => none) =
      ss.filter (fun s => optFalsy (resolveRef tm s)) := by
  induction ss with
  | nil => rfl
  | cons s rest ih =>
    simp only [List.map_cons, List.zip_cons_cons, List.filterMap_cons, List.filter_cons]
    by_cases hf : optFalsy (resolveRef tm s) <;> simp [hf, ih]

/-- C6: resolution of a reference list containing an unresolvable name
fails atomically, naming exactly the unresolved entries of that list
(all of them and none of the resolved ones), at each of the three
sites: `people`, `any_people`, and `tags`. Mappings are assumed to
carry non-empty ids (as real Immich ids are), which makes the code's
Python-falsiness test agree with failed resolution. -/
theorem spec_c6 (pm tm : Mapping) (q : Dict) (ss : List String)
    (hpm : ∀ p ∈ pm, p.2 ≠ "") (htm : ∀ p ∈ tm, p.2 ≠ "") :
    ((dictLookup q "people" = some (Value.vStrList ss)) →
      (∃ s ∈ ss, resolveRef pm s = none) →
      config_query_body q pm tm =
        Except.error (SyncError.unresolvedPeople
          (ss.filter (fun s => (resolveRef pm s).isNone)))) ∧
    ((dictLookup q "people" = none) →
      (dictLookup q "any_people" = some (Value.vStrList ss)) →
      (∃ s ∈ ss, resolveRef pm s = none) →
      config_query_body q pm tm =
        Except.error (SyncError.unresolvedAnyPeople
          (ss.filter (fun s => (resolveRef pm s).isNone)))) ∧
    ((dictLookup q "people" = none) → (dictLookup q "any_people" = none) →
      (dictLookup q "tags" = some (Value.vStrList ss)) →
      (∃ s ∈ ss, resolveRef tm s = none) →
      config_query_body q pm tm =
        Except.error (SyncError.unresolvedTags
          (ss.filter (fun s => (resolveRef tm s).isNone)))) := by
  refine ⟨fun hp hex => ?_, fun hp hap hex => ?_, fun hp hap ht hex => ?_⟩
  · obtain ⟨s, hs, hu⟩ := hex
    have h1 := stepPeople_unresolved q pm ss hp
      ⟨s, hs, by rw [refUnresolved_iff_none pm hpm s, hu]; rfl⟩
    unfold config_query_body
    rw [h1, filter_refUnresolved_eq pm hpm ss]
    rfl
  · obtain ⟨s, hs, hu⟩ := hex
    have h1 : stepPeople q pm = Except.ok (none, q) := by
      unfold stepPeople
      rw [hp]
    have hu2 : refUnresolved pm s = true := by
      rw [refUnresolved_iff_none pm hpm s, hu]; rfl
    have hne : ss.filter (fun s => refUnresolved pm s) ≠ [] := filter_ne_nil_of_mem hs hu2
    have h2 : stepAnyPeople q pm none =
        Except.error (SyncError.unresolvedAnyPeople
          (ss.filter (fun s => refUnresolved pm s))) := by
      unfold stepAnyPeople
      rw [hap]
      simp [iterValue, resolveLoop_strings, Bind.bind, Except.bind, List.isEmpty_iff, hne]
    unfold config_query_body
    rw [h1]
    show (stepAnyPeople q pm none >>= _) = _
    rw [h2, filter_refUnresolved_eq pm hpm ss]
    rfl
  · obtain ⟨s, hs, hu⟩ := hex
    have h1 : stepPeople q pm = Except.ok (none, q) := by
      unfold stepPeople
      rw [hp]
    have h2 : stepAnyPeople q pm none = Except.ok ([none], false, q) := by
      unfold stepAnyPeople
      rw [hap]
    have hcont : (ss.map (resolveRef tm)).contains none = true := by
      rw [List.contains_iff_exists_mem_beq]
      exact ⟨none, List.mem_map.mpr ⟨s, hs, hu⟩, rfl⟩
    have h3 : stepTags q tm =
        Except.error (SyncError.unresolvedTags
          (ss.filter (fun s => optFalsy (resolveRef tm s)))) := by
      unfold stepTags
      rw [ht]
      simp only [listifyRefs, tagLoop_strings, Bind.bind, Except.bind]
      rw [if_pos hcont, tags_invalid_eq]
    unfold config_query_body
    rw [h1]
    show (stepAnyPeople q pm none >>= _) = _
    rw [h2]
    show (stepTags q tm >>= _) = _
    rw [h3]
    have : ss.filter (fun s => optFalsy (resolveRef tm s)) =
        ss.filter (fun s => (resolveRef tm s).isNone) := by
      apply List.filter_congr
      intro x _
      exact refUnresolved_iff_none tm htm x
    rw [this]
    rfl

/-- Witness for C6, the spec's example: `people: ["Alice", "unknown-name"]`
where only Alice exists fails naming exactly `["unknown-name"]`. -/
theorem spec_c6_witness :
    config_query_body [("people", Value.vStrList ["Alice", "unknown-name"])]
      [("Alice", "person-id-1")] [] =
      Except.error (SyncError.unresolvedPeople ["unknown-name"]) := by
  have h := (spec_c6 [("Alice", "person-id-1")] [] [("people", Value.vStrList ["Alice", "unknown-name"])]
    ["Alice", "unknown-name"] (by decide) (by decide)).1 rfl ⟨"unknown-name", by decide, by decide⟩
  simpa using h

end ImmichSync

namespace ImmichSync

theorem stepAnyPeople_ok_resolved (q : Dict) (pm : Mapping) (andP : Option (List String))
    (iters : List (Option String)) (uses : Bool) (q2 : Dict) (v : Value) (vals : List Value)
    (rids : List String)
    (hl : dictLookup q "any_people" = some v) (hv : iterValue v = Except.ok vals)
    (hr : resolveLoop pm vals = Except.ok (rids, [])) (hne : rids ≠ [])
    (h : stepAnyPeople q pm andP = Except.ok (iters, uses, q2)) :
    iters = rids.map some ∧ uses = true := by
  unfold stepAnyPeople at h
  split at h
  · next hl2 => rw [hl] at hl2; exact absurd hl2 (by simp)
  · next v2 hl2 =>
    rw [hl] at hl2
    injection hl2 with hl2
    subst hl2
    split at h
    · simp at h
    · rw [except_bind_ok] at h
      obtain ⟨vals2, hv2, h⟩ := h
      rw [hv] at hv2
      injection hv2 with hv2
      subst hv2
      rw [except_bind_ok] at h
      obtain ⟨ru, hru, h⟩ := h
      rw [hr] at hru
      injection hru with hru
      subst hru
      simp only [List.isEmpty_nil, if_true] at h
      have : ¬rids.isEmpty = true := by
        cases rids
        · exact absurd rfl hne
        · simp
      rw [if_neg this] at h
      simp only [Except.ok.injEq, Prod.mk.injEq] at h
      exact ⟨h.1.symm, h.2.1.symm⟩

theorem dictLookup_ite_remove (d : Dict) (cond : Prop) [Decidable cond] (k k2 : String)
    (hk : k2 ≠ k) :
    dictLookup (if cond then dictRemove d k else d) k2 = dictLookup d k2 := by
  split
  · exact dictLookup_dictRemove_ne d k k2 hk
  · rfl

theorem buildSub_person (c : Value) (t : TsParam) (pid : String)
    (andP : Option (List String)) (rest : Dict) :
    dictLookup (buildSub c t (some pid) true andP rest) "person_ids" =
      some (Value.vStrList [pid]) := by
  unfold buildSub
  simp only
  rw [dictLookup_ite_remove _ _ "after" "person_ids" (by decide),
    dictLookup_ite_remove _ _ "before" "person_ids" (by decide),
    dictLookup_ite_remove _ _ "country" "person_ids" (by decide)]
  simp only [if_true]
  rw [dictLookup_dictSet_self]

/-- C8: when `any_people` is present and every reference resolves (to a
non-empty id list), every yielded atomic query carries a single-person
constraint `person_ids = [pid]` for some resolved `pid`, and (when any
query is yielded at all) each resolved identifier gets its own branch —
never one branch with a multi-person AND constraint. -/
theorem spec_c8 (q : Dict) (pm tm : Mapping) (out : List Dict) (qf : Dict) (v : Value)
    (vals : List Value) (rids : List String)
    (h : config_query_body q pm tm = Except.ok (out, qf))
    (ha : dictLookup q "any_people" = some v)
    (hv : iterValue v = Except.ok vals)
    (hr : resolveLoop pm vals = Except.ok (rids, []))
    (hne : rids ≠ []) :
    (∀ sq ∈ out, ∃ pid ∈ rids, dictLookup sq "person_ids" = some (Value.vStrList [pid])) ∧
    (out ≠ [] → ∀ pid ∈ rids, ∃ sq ∈ out,
      dictLookup sq "person_ids" = some (Value.vStrList [pid])) := by
  unfold config_query_body at h
  rw [except_bind_ok] at h
  obtain ⟨⟨andP, q1⟩, h1, h⟩ := h
  rw [except_bind_ok] at h
  obtain ⟨⟨iters, uses, q2⟩, h2, h⟩ := h
  rw [except_bind_ok] at h
  obtain ⟨q3, h3, h⟩ := h
  rw [except_bind_ok] at h
  obtain ⟨⟨cs, q4⟩, h4, h⟩ := h
  rw [except_bind_ok] at h
  obtain ⟨⟨tsRaw, q5⟩, h5, h⟩ := h
  rw [except_bind_ok] at h
  obtain ⟨ts0, h6, h⟩ := h
  simp only [Except.ok.injEq, Prod.mk.injEq] at h
  obtain ⟨hout, -⟩ := h
  have ha1 : dictLookup q1 "any_people" = some v := by
    rw [stepPeople_lookup q pm andP q1 h1 "any_people" (by decide)]
    exact ha
  obtain ⟨hiters, huses⟩ :=
    stepAnyPeople_ok_resolved q1 pm andP iters uses q2 v vals rids ha1 hv hr hne h2
  subst hiters huses
  rw [← hout]
  constructor
  · intro sq hsq
    rw [List.mem_flatMap] at hsq
    obtain ⟨c, hc, hsq⟩ := hsq
    rw [List.mem_flatMap] at hsq
    obtain ⟨t, ht, hsq⟩ := hsq
    rw [List.mem_map] at hsq
    obtain ⟨o, ho, hsq⟩ := hsq
    rw [List.mem_map] at ho
    obtain ⟨pid, hpid, ho⟩ := ho
    subst ho
    exact ⟨pid, hpid, by rw [← hsq]; exact buildSub_person c t pid andP q5⟩
  · intro hone pid hpid
    have hcs : cs ≠ [] := by
      intro hnil
      rw [hnil] at hone
      simp at hone
    obtain ⟨c, hc⟩ := List.exists_mem_of_ne_nil cs hcs
    have htss : ∃ t, t ∈ (if ts0.isEmpty then
        [((none : Option Nat), (none : Option Nat))] else ts0) := by
      cases ts0 <;> simp
    obtain ⟨t, ht⟩ := htss
    refine ⟨buildSub c t (some pid) true andP q5, ?_, buildSub_person c t pid andP q5⟩
    rw [List.mem_flatMap]
    refine ⟨c, hc, ?_⟩
    rw [List.mem_flatMap]
    refine ⟨t, ht, ?_⟩
    rw [List.mem_map]
    exact ⟨some pid, List.mem_map.mpr ⟨pid, hpid, rfl⟩, rfl⟩

/-- Witness for C8, the spec's example shape: two resolved identifiers
give two branches, each with a one-element `person_ids`. -/
theorem spec_c8_witness :
    (∃ pid ∈ (["11111111-1111-1111-1111-111111111111",
               "22222222-2222-2222-2222-222222222222"] : List String),
      dictLookup [("person_ids",
          Value.vStrList ["11111111-1111-1111-1111-111111111111"])] "person_ids" =
        some (Value.vStrList [pid])) := by
  have h := spec_c8
    [("any_people", Value.vStrList ["11111111-1111-1111-1111-111111111111",
       "22222222-2222-2222-2222-222222222222"])] [] []
    [[("person_ids", Value.vStrList ["11111111-1111-1111-1111-111111111111"])],
     [("person_ids", Value.vStrList ["22222222-2222-2222-2222-222222222222"])]]
    [] (Value.vStrList ["11111111-1111-1111-1111-111111111111",
       "22222222-2222-2222-2222-222222222222"])
    [Value.vStr "11111111-1111-1111-1111-111111111111",
     Value.vStr "22222222-2222-2222-2222-222222222222"]
    ["11111111-1111-1111-1111-111111111111", "22222222-2222-2222-2222-222222222222"]
    rfl rfl rfl rfl (by decide)
  exact h.1 [("person_ids", Value.vStrList ["11111111-1111-1111-1111-111111111111"])]
    (by simp)

end ImmichSync

namespace ImmichSync

/-- C7 (amended): a timespan whose `start` or `end` fails to parse
aborts the album before any search call — in the call-trace model, the
album's sync returns an error and produces no call list at all, because
`sync_albums` materialises the whole expansion (line 372) before its
first `immich.search`. The inverted-range half of the original claim is
refuted by the counterexample: the code never compares the two dates,
so `start` after `end` raises nothing. When only `start` is unparsable, the `end` value is
computed first (the dict literal evaluates `before` before `after`), so
the start error surfaces provided `end + 1 day` does not overflow
`datetime.max`. -/
theorem spec_c7 (q : Dict) (pm tm : Mapping) (sr : Dict → Finset String) (aid : String)
    (cur : Finset String) (s e : String)
    (hp : dictLookup q "people" = none) (hap : dictLookup q "any_people" = none)
    (ht : dictLookup q "tags" = none) (hc : dictLookup q "country" = none)
    (hts : dictLookup q "timespan" = some (Value.vTs s e)) :
    (parseDate e = none →
      albumSyncCalls q pm tm sr aid cur = Except.error (SyncError.dateParseFailure e)) ∧
    (∀ de, parseDate e = some de → toOrdinal de + 1 ≤ maxOrdinal → parseDate s = none →
      albumSyncCalls q pm tm sr aid cur = Except.error (SyncError.dateParseFailure s)) := by
  have h1 : stepPeople q pm = Except.ok (none, q) := by
    unfold stepPeople
    rw [hp]
  have h2 : stepAnyPeople q pm none = Except.ok ([none], false, q) := by
    unfold stepAnyPeople
    rw [hap]
  have h3 : stepTags q tm = Except.ok q := by
    unfold stepTags
    rw [ht]
  have h4 : stepCountry q = Except.ok ([Value.vNone], q) := by
    unfold stepCountry
    rw [hc]
  have h5 : stepTimespan q = Except.ok ([Value.vTs s e], dictRemove q "timespan") := by
    unfold stepTimespan
    rw [hts]
  have hbody : ∀ err, processTimespans [Value.vTs s e] = Except.error err →
      albumSyncCalls q pm tm sr aid cur = Except.error err := by
    intro err h6
    have hb : config_query_body q pm tm = Except.error err := by
      unfold config_query_body
      rw [h1]
      show (stepAnyPeople q pm none >>= _) = _
      rw [h2]
      show (stepTags q tm >>= _) = _
      rw [h3]
      show (stepCountry q >>= _) = _
      rw [h4]
      show (stepTimespan q >>= _) = _
      rw [h5]
      show (processTimespans [Value.vTs s e] >>= _) = _
      rw [h6]
      rfl
    unfold albumSyncCalls
    show (config_query_body q pm tm >>= _) = _
    rw [hb]
    rfl
  constructor
  · intro he
    apply hbody
    simp [processTimespans, processOneTimespan, he, Bind.bind, Except.bind]
  · intro de hde hov hs
    have hno : ¬ maxOrdinal < toOrdinal de + 1 := by omega
    apply hbody
    simp [processTimespans, processOneTimespan, hde, hs, hno, Bind.bind, Except.bind]

/-- Witness for C7: an unparsable `end` date aborts the album's sync
with the strptime error and no call is issued. -/
theorem spec_c7_witness :
    albumSyncCalls [("timespan", Value.vTs "2024-01-01" "bogus")] [] []
      (fun _ => ∅) "album1" ∅ = Except.error (SyncError.dateParseFailure "bogus") :=
  (spec_c7 [("timespan", Value.vTs "2024-01-01" "bogus")] [] [] (fun _ => ∅) "album1" ∅
    "2024-01-01" "bogus" rfl rfl rfl rfl rfl).1 rfl

/-- C10: the generator function's body contains `yield`, so calling it
only packages the arguments into a suspended generator — no validation
runs and nothing can be raised at call time; every error of the body
(conflict, unresolved names, malformed timespan, wrongly typed fields)
surfaces exactly at the first advance. -/
theorem spec_c10 (q : Dict) (pm tm : Mapping) :
    config_query_to_search_queries q pm tm = PyGenerator.mk q pm tm ∧
    (∀ e, PyGenerator.next1 (config_query_to_search_queries q pm tm) = Except.error e ↔
      config_query_body q pm tm = Except.error e) := by
  refine ⟨rfl, fun e => ?_⟩
  unfold PyGenerator.next1 config_query_to_search_queries
  cases h : config_query_body q pm tm with
  | error e2 => simp [h]
  | ok lq => simp

/-- Witness for C10: a generator built from an expression with an
unresolvable name raises exactly at the first advance. -/
theorem spec_c10_witness :
    PyGenerator.next1 (config_query_to_search_queries
      [("people", Value.vStrList ["x"])] [] []) =
      Except.error (SyncError.unresolvedPeople ["x"]) :=
  ((spec_c10 [("people", Value.vStrList ["x"])] [] []).2
    (SyncError.unresolvedPeople ["x"])).mpr rfl

end ImmichSync

namespace ImmichSync

/-- Witness for C9 at the concrete plan `to_remove = {"x"}`, `to_add = ∅`. -/
theorem spec_c9_witness :
    (applyPlanCalls "a" {"x"} ∅).filter isRemoveCall = [ApiCall.removeAssets "a" {"x"}] ∧
    (applyPlanCalls "a" {"x"} ∅).filter isAddCall = [] ∧
    (applyPlanCalls "a" {"x"} ∅).filter isRemoveCall ++
      (applyPlanCalls "a" {"x"} ∅).filter isAddCall = applyPlanCalls "a" {"x"} ∅ := by
  have h := spec_c9 "a" {"x"} ∅
  refine ⟨?_, ?_, h.2.2⟩
  · rw [h.1]
    simp
  · rw [h.2.1]
    simp

end ImmichSync
